import Mathlib

/-!
# Verification of the kvazaar encoder driver (`src/encmain.c`)

A shallow embedding of the `main` driver loop of kvazaar's `encmain.c`,
together with the two file-opening helpers `open_input_file` and
`open_output_file`.  External collaborators (the encoder, the YUV reader,
the configuration parser, the clocks) are modelled by oracles gathered in
an `Env` structure; the driver's own control flow — the acquisition
sequence, the submission loop, the flush/drain loop, the statistics block
and the shared teardown — is translated statement by statement from the C
source.  Floating-point values are modelled by `ℚ`, and the result of a
division whose divisor is zero by the marker `FVal.undef` (IEEE NaN or
±infinity); this records exactly where the C code performs a division
with a zero divisor.

The driver emits a trace of observable events (reads, submissions, frees,
time captures, the threadqueue flush, the teardown release steps), which
the temporal and resource-lifecycle theorems are stated over.
-/

namespace Encmain

/-- A stream handle: `stdin`/`stdout` for the `"-"` sentinel, or a named
file opened with an explicit `fopen` mode string. -/
inductive Handle where
  | stdin  : Handle
  | stdout : Handle
  | named  : String → String → Handle
deriving DecidableEq

/-- Model of `fopen(name, mode)`: the oracle `avail` says which opens
succeed; a successful open yields a named handle carrying the mode. -/
def fopen (avail : String → String → Bool) (name mode : String) : Option Handle :=
  if avail name mode then some (Handle.named name mode) else none

/-- Function `open_input_file` from `encmain.c`: `"-"` yields `stdin`, any other
name is opened with `fopen(filename, "rb")`. -/
def open_input_file (avail : String → String → Bool) (filename : String) : Option Handle :=
  if filename = "-" then some Handle.stdin else fopen avail filename ("rb")

/-- Function `open_output_file` from `encmain.c`: `"-"` yields `stdout`, any other
name is opened with `fopen(filename, "wb")`.  Used for both the bitstream
output and the `--debug` reconstruction output. -/
def open_output_file (avail : String → String → Bool) (filename : String) : Option Handle :=
  if filename = "-" then some Handle.stdout else fopen avail filename ("wb")

/-- The configuration fields of `config_t` that the driver reads. -/
structure Config where
  input  : String
  output : String
  debug  : Option String
  frames : Nat
  seek   : Nat

/-- Observable events of one driver run, in program order. -/
inductive Event where
  | printHelp                     : Event
  | captureStartTime              : Event
  | readFrame (i : Nat) (ok : Bool) : Event
  | logReadError                  : Event
  | submit (k : Nat) (ok : Bool)  : Event
  | emitOutput (j : Nat)          : Event
  | freeImgIn                     : Event
  | drainCall (ok : Bool)         : Event
  | captureEndTime                : Event
  | threadqueueFlush              : Event
  | printStats                    : Event
  | closeEncoder                  : Event
  | finalizeBitstream             : Event
  | destroyConfig                 : Event
  | closeFile (h : Handle)        : Event
deriving DecidableEq

/-- Floating-point result: a finite rational, or the non-finite outcome
(NaN/±inf) of a division by zero. -/
inductive FVal where
  | fin   : ℚ → FVal
  | undef : FVal
deriving DecidableEq

/-- IEEE division as observed by the driver: a zero divisor yields the
non-finite marker, otherwise the exact quotient. -/
def fpDiv (a b : ℚ) : FVal :=
  if b = 0 then FVal.undef else FVal.fin (a / b)

/-- Multiplication of a floating value by a constant (`* 100.f`):
non-finite stays non-finite. -/
def FVal.mulQ : FVal → ℚ → FVal
  | FVal.fin a, c => FVal.fin (a * c)
  | FVal.undef, _ => FVal.undef

/-- Oracles for the external collaborators of `main`, plus the
configuration.  `availFrames` is the number of whole frames the input
holds (after any seek); `tailError` tells whether the first failing read
is a short/malformed read (`feof` false) rather than clean end-of-stream.
`encodeEmit k` tells whether the `k`-th successful submission returns a
completed picture; `drainNulls` is the number of flush calls that return
success with no picture.  `psnrOf`/`bytesOf` give the per-output
statistics reported by `encoder_compute_stats`. -/
structure Env where
  cfg            : Config
  configAllocOk  : Bool
  configInitOk   : Bool
  configReadOk   : Bool
  fopenOk        : String → String → Bool
  bitstreamInitOk : Bool
  encoderOpenOk  : Bool
  seekOk         : Bool
  availFrames    : Nat
  tailError      : Bool
  allocFailAt    : Option Nat
  encodeFailAt   : Option Nat
  encodeEmit     : Nat → Bool
  drainNulls     : Nat
  psnrOf         : Nat → ℚ × ℚ × ℚ
  bytesOf        : Nat → Nat
  startWall      : ℚ
  startCpu       : ℚ
  endWall        : ℚ
  endCpu         : ℚ

/-- Which resources `main` holds when teardown runs (`enc`, `cfg`, and
the three `FILE*` handles, mirroring the variables tested at the
`done:` label). -/
structure MState where
  enc    : Bool
  cfgA   : Bool
  input  : Option Handle
  output : Option Handle
  recout : Option Handle

/-- The release steps executed at the `done:` label, in source order:

    if (enc) api->encoder_close(enc);
    bitstream_finalize(&output_stream);   // no guard in the source
    if (cfg) api->config_destroy(cfg);
    if (input)  fclose(input);
    if (output) fclose(output);
    if (recout) fclose(recout);
-/
def teardownTrace (s : MState) : List Event :=
  (if s.enc then [Event.closeEncoder] else []) ++
  [Event.finalizeBitstream] ++
  (if s.cfgA then [Event.destroyConfig] else []) ++
  (match s.input with | some h => [Event.closeFile h] | none => []) ++
  (match s.output with | some h => [Event.closeFile h] | none => []) ++
  (match s.recout with | some h => [Event.closeFile h] | none => [])

/-- Running counters of the submission loop: `started` is
`frames_started`, `done` is `frames_done`, `pending` counts frames inside
the encoder not yet returned, `subs` counts `encoder_encode` calls with a
frame, `attempts`/`succs` count `read_one_frame` calls and their
successes, `psnr`/`bits` are `psnr_sum` and `bitstream_length`. -/
structure LoopSt where
  started  : Nat
  done     : Nat
  pending  : Nat
  subs     : Nat
  attempts : Nat
  succs    : Nat
  psnr0    : ℚ
  psnr1    : ℚ
  psnr2    : ℚ
  bits     : Nat
deriving DecidableEq

/-- The all-zero initial loop state. -/
def initLoop : LoopSt := ⟨0, 0, 0, 0, 0, 0, 0, 0, 0, 0⟩

/-- The main coding loop (`while (cfg->frames == 0 || frames_started <
cfg->frames)`), fuelled; the fuel passed by `encodePhase` always
suffices.  Returns the events of the loop body, the final counters, and
whether the loop exited through `goto exit_failure` (image-allocation or
`encoder_encode` failure) rather than normally. -/
def submitLoopF (env : Env) : Nat → LoopSt → List Event × LoopSt × Bool
  | 0, s => ([], s, false)
  | fuel + 1, s =>
    if env.cfg.frames = 0 ∨ s.started < env.cfg.frames then
      -- frames_started += 1;
      let s1 : LoopSt := { s with started := s.started + 1 }
      -- img_in = image_alloc(...); if (!img_in) goto exit_failure;
      if env.allocFailAt = some s.started then ([], s1, true)
      else
        -- if (!read_one_frame(input, state, img_in)) { ... break; }
        if s.succs < env.availFrames then
          let s2 : LoopSt := { s1 with attempts := s1.attempts + 1, succs := s1.succs + 1 }
          -- if (1 != api->encoder_encode(enc, img_in, &img_out, &output_stream))
          if env.encodeFailAt = some s.subs then
            ([Event.readFrame s.attempts true, Event.submit s.subs false, Event.freeImgIn],
             { s2 with subs := s2.subs + 1 }, true)
          else
            let s3 : LoopSt := { s2 with subs := s2.subs + 1, pending := s2.pending + 1 }
            if env.encodeEmit s.subs then
              -- img_out != NULL: encoder_compute_stats, frames_done += 1, psnr_sum += ...
              let j := s3.done
              let p := env.psnrOf j
              let s4 : LoopSt := { s3 with
                pending := s3.pending - 1, done := s3.done + 1,
                psnr0 := s3.psnr0 + p.1, psnr1 := s3.psnr1 + p.2.1,
                psnr2 := s3.psnr2 + p.2.2, bits := s3.bits + env.bytesOf j }
              let r := submitLoopF env fuel s4
              (Event.readFrame s.attempts true :: Event.submit s.subs true ::
                 Event.emitOutput j :: Event.freeImgIn :: r.1, r.2)
            else
              let r := submitLoopF env fuel s3
              (Event.readFrame s.attempts true :: Event.submit s.subs true ::
                 Event.freeImgIn :: r.1, r.2)
        else
          -- read failed: log unless feof, free img_in, break
          ((if env.tailError then
              [Event.readFrame s.attempts false, Event.logReadError, Event.freeImgIn]
            else
              [Event.readFrame s.attempts false, Event.freeImgIn]),
           { s1 with attempts := s1.attempts + 1 }, false)
    else ([], s, false)

/-- Counters of the flush loop: `pending` frames still inside the
encoder, `stutter` remaining flush calls that return success without a
picture, and the continued statistics accumulators. -/
structure DrainSt where
  pending : Nat
  stutter : Nat
  done    : Nat
  psnr0   : ℚ
  psnr1   : ℚ
  psnr2   : ℚ
  bits    : Nat
deriving DecidableEq

/-- The flush loop (`while (1 == api->encoder_encode(enc, NULL, &img_out,
&output_stream))`), fuelled; the fuel passed by `encodePhase` always
suffices.  The terminating call returns a value other than 1. -/
def drainLoopF (env : Env) : Nat → DrainSt → List Event × DrainSt
  | 0, d => ([], d)
  | fuel + 1, d =>
    if d.pending = 0 then ([Event.drainCall false], d)
    else if 0 < d.stutter then
      let r := drainLoopF env fuel { d with stutter := d.stutter - 1 }
      (Event.drainCall true :: r.1, r.2)
    else
      let j := d.done
      let p := env.psnrOf j
      let d1 : DrainSt := { d with
        pending := d.pending - 1, done := d.done + 1,
        psnr0 := d.psnr0 + p.1, psnr1 := d.psnr1 + p.2.1, psnr2 := d.psnr2 + p.2.2,
        bits := d.bits + env.bytesOf j }
      let r := drainLoopF env fuel d1
      (Event.drainCall true :: Event.emitOutput j :: r.1, r.2)

/-- The final summary block of `main` (lines 255-267): `Processed`
line with `psnr_sum[i] / frames_done` and `bitstream_length * 8`, then
`encoding_time / wall_time * 100.f` and `frames_done / wall_time`.
None of the divisions is preceded by a zero test in the source. -/
structure FinalReport where
  processedFrames : Nat
  totalBits       : Nat
  avg0            : FVal
  avg1            : FVal
  avg2            : FVal
  encodingTime    : ℚ
  wallTime        : ℚ
  cpuUsage        : FVal
  fps             : FVal
deriving DecidableEq

/-- Build the final report exactly as the statistics block computes it. -/
def mkReport (env : Env) (d : DrainSt) : FinalReport :=
  let encodingTime := env.endCpu - env.startCpu
  let wallTime := env.endWall - env.startWall
  { processedFrames := d.done
    totalBits := d.bits * 8
    avg0 := fpDiv d.psnr0 (d.done : ℚ)
    avg1 := fpDiv d.psnr1 (d.done : ℚ)
    avg2 := fpDiv d.psnr2 (d.done : ℚ)
    encodingTime := encodingTime
    wallTime := wallTime
    cpuUsage := FVal.mulQ (fpDiv encodingTime wallTime) 100
    fps := fpDiv (d.done : ℚ) wallTime }

/-- Outcome of one driver run: the exit status (`true` = `EXIT_SUCCESS`),
the event trace, the final counters, whether `bitstream_init` ever
succeeded, and the final statistics (present only when the run reached
the statistics block). -/
structure RunResult where
  retval         : Bool
  trace          : List Event
  framesStarted  : Nat
  framesDone     : Nat
  readAttempts   : Nat
  readsSucceeded : Nat
  submissions    : Nat
  bsInit         : Bool
  report         : Option FinalReport

/-- A run that jumps to `exit_failure` before the coding loop:
`EXIT_FAILURE`, the given pre-teardown events, then the teardown steps
for the resources held in `st`. -/
def failRun (evts : List Event) (st : MState) (bs : Bool) : RunResult :=
  { retval := false, trace := evts ++ teardownTrace st,
    framesStarted := 0, framesDone := 0, readAttempts := 0, readsSucceeded := 0,
    submissions := 0, bsInit := bs, report := none }

/-- The coding phase (lines 168-268): time capture, submission loop,
flush loop, end-time capture, threadqueue flush, statistics; followed by
the shared teardown.  A `goto exit_failure` out of the loop skips the
flush and the statistics. -/
def encodePhase (env : Env) (st : MState) : RunResult :=
  let r := submitLoopF env (env.availFrames + env.cfg.frames + 2) initLoop
  let s := r.2.1
  if r.2.2 then
    { retval := false
      trace := (Event.captureStartTime :: r.1) ++ teardownTrace st
      framesStarted := s.started, framesDone := s.done,
      readAttempts := s.attempts, readsSucceeded := s.succs, submissions := s.subs,
      bsInit := true, report := none }
  else
    let d0 : DrainSt := ⟨s.pending, env.drainNulls, s.done, s.psnr0, s.psnr1, s.psnr2, s.bits⟩
    let dr := drainLoopF env (s.pending + env.drainNulls + 1) d0
    let d := dr.2
    { retval := true
      trace := (Event.captureStartTime :: (r.1 ++ dr.1 ++
                 [Event.captureEndTime, Event.threadqueueFlush, Event.printStats])) ++
               teardownTrace st
      framesStarted := s.started, framesDone := d.done,
      readAttempts := s.attempts, readsSucceeded := s.succs, submissions := s.subs,
      bsInit := true, report := some (mkReport env d) }

/-- Resource acquisition after the three files are open: `bitstream_init`,
`encoder_open`, the seek, then the coding phase.  Each failure jumps to
`exit_failure` with the teardown for what is held so far. -/
def afterFiles (env : Env) (st : MState) : RunResult :=
  if env.bitstreamInitOk then
    if env.encoderOpenOk then
      if 0 < env.cfg.seek ∧ ¬ env.seekOk then
        failRun [] { st with enc := true } true
      else
        encodePhase env { st with enc := true }
    else failRun [] st true
  else failRun [] st false

/-- Function `main` from `encmain.c`: configuration, file opens, bitstream and
encoder setup, seek, coding phase, teardown.  A configuration failure
prints the banner and jumps to `exit_failure`; note that teardown
finalizes the output-stream wrapper unconditionally. -/
def runMain (env : Env) : RunResult :=
  if env.configAllocOk ∧ env.configInitOk ∧ env.configReadOk then
    match open_input_file env.fopenOk env.cfg.input with
    | none => failRun [] ⟨false, true, none, none, none⟩ false
    | some hin =>
      match open_output_file env.fopenOk env.cfg.output with
      | none => failRun [] ⟨false, true, some hin, none, none⟩ false
      | some hout =>
        match env.cfg.debug with
        | some dpath =>
          match open_output_file env.fopenOk dpath with
          | none => failRun [] ⟨false, true, some hin, some hout, none⟩ false
          | some hrec => afterFiles env ⟨false, true, some hin, some hout, some hrec⟩
        | none => afterFiles env ⟨false, true, some hin, some hout, none⟩
  else
    failRun [Event.printHelp] ⟨false, env.configAllocOk, none, none, none⟩ false

/-- Whether the optional `--debug` reconstruction output opens. -/
def debugOpens (env : Env) : Bool :=
  match env.cfg.debug with
  | none => true
  | some d => (open_output_file env.fopenOk d).isSome

/-- All acquisitions up to the coding loop succeed. -/
def acqOk (env : Env) : Prop :=
  env.configAllocOk = true ∧ env.configInitOk = true ∧ env.configReadOk = true ∧
  (open_input_file env.fopenOk env.cfg.input).isSome = true ∧
  (open_output_file env.fopenOk env.cfg.output).isSome = true ∧
  debugOpens env = true ∧
  env.bitstreamInitOk = true ∧ env.encoderOpenOk = true ∧
  (env.cfg.seek = 0 ∨ env.seekOk = true)

instance (env : Env) : Decidable (acqOk env) := by
  unfold acqOk; infer_instance

/-- The resource state held when the coding loop is reached. -/
def stAll (env : Env) : MState :=
  ⟨true, true, open_input_file env.fopenOk env.cfg.input,
   open_output_file env.fopenOk env.cfg.output,
   match env.cfg.debug with
   | none => none
   | some d => open_output_file env.fopenOk d⟩

theorem runMain_acq (env : Env) (h : acqOk env) :
    runMain env = encodePhase env (stAll env) := by
  obtain ⟨h1, h2, h3, h4, h5, h6, h7, h8, h9⟩ := h
  obtain ⟨hin, hineq⟩ := Option.isSome_iff_exists.mp h4
  obtain ⟨hout, houteq⟩ := Option.isSome_iff_exists.mp h5
  unfold runMain afterFiles stAll
  rw [hineq, houteq]
  simp only [h1, h2, h3, h7, h8, and_self, if_true]
  have hseek : ¬ (0 < env.cfg.seek ∧ ¬ env.seekOk = true) := by
    rcases h9 with h9 | h9
    · simp [h9]
    · simp [h9]
  cases hdbg : env.cfg.debug with
  | none =>
    simp only [Bool.not_eq_true] at hseek
    simp [hseek, hdbg]
  | some dpath =>
    unfold debugOpens at h6
    rw [hdbg] at h6
    obtain ⟨hrec, hreceq⟩ := Option.isSome_iff_exists.mp h6
    simp only [Bool.not_eq_true] at hseek
    simp [hseek, hreceq]

/-! ## Characterizations of the two loops -/

/-- The reachable loop states: all four counters agree and the frames
inside the encoder plus the frames already returned account for every
submission. -/
def aligned (s : LoopSt) (n : Nat) : Prop :=
  s.started = n ∧ s.attempts = n ∧ s.succs = n ∧ s.subs = n ∧ s.done + s.pending = n

theorem submitLoop_limit (env : Env) (hal : env.allocFailAt = none)
    (hef : env.encodeFailAt = none) (hf0 : 0 < env.cfg.frames)
    (hfa : env.cfg.frames ≤ env.availFrames) :
    ∀ fuel n s, aligned s n → n ≤ env.cfg.frames → env.cfg.frames - n < fuel →
      (submitLoopF env fuel s).2.2 = false ∧
      aligned (submitLoopF env fuel s).2.1 env.cfg.frames := by
  intro fuel
  induction fuel with
  | zero => intro n s _ _ h; omega
  | succ fuel ih =>
    intro n s hs hn hfuel
    obtain ⟨e1, e2, e3, e4, e5⟩ := hs
    by_cases hlt : n < env.cfg.frames
    · have hguard : env.cfg.frames = 0 ∨ s.started < env.cfg.frames := Or.inr (by omega)
      have hread : s.succs < env.availFrames := by omega
      rw [submitLoopF, if_pos hguard, if_neg (by simp [hal]), if_pos hread,
          if_neg (by simp [hef])]
      by_cases hemit : env.encodeEmit s.subs
      · simp only [hemit, if_true]
        exact ih (n + 1)
          { started := s.started + 1, done := s.done + 1, pending := s.pending + 1 - 1,
            subs := s.subs + 1, attempts := s.attempts + 1, succs := s.succs + 1,
            psnr0 := s.psnr0 + (env.psnrOf s.done).1, psnr1 := s.psnr1 + (env.psnrOf s.done).2.1,
            psnr2 := s.psnr2 + (env.psnrOf s.done).2.2, bits := s.bits + env.bytesOf s.done }
          (by refine ⟨?_, ?_, ?_, ?_, ?_⟩ <;> simp <;> omega)
          (by omega) (by omega)
      · simp only [hemit, if_false]
        exact ih (n + 1)
          { started := s.started + 1, done := s.done, pending := s.pending + 1,
            subs := s.subs + 1, attempts := s.attempts + 1, succs := s.succs + 1,
            psnr0 := s.psnr0, psnr1 := s.psnr1, psnr2 := s.psnr2, bits := s.bits }
          (by refine ⟨?_, ?_, ?_, ?_, ?_⟩ <;> simp <;> omega)
          (by omega) (by omega)
    · have hn' : n = env.cfg.frames := by omega
      have hguard : ¬ (env.cfg.frames = 0 ∨ s.started < env.cfg.frames) := by
        rintro (h | h) <;> omega
      rw [submitLoopF, if_neg hguard]
      refine ⟨rfl, ?_, ?_, ?_, ?_, ?_⟩ <;> simp <;> omega

theorem submitLoop_exhaust (env : Env) (hal : env.allocFailAt = none)
    (hef : env.encodeFailAt = none)
    (hreach : env.cfg.frames = 0 ∨ env.availFrames < env.cfg.frames) :
    ∀ fuel n s, aligned s n → n ≤ env.availFrames → env.availFrames - n < fuel →
      (submitLoopF env fuel s).2.2 = false ∧
      (submitLoopF env fuel s).2.1.started = env.availFrames + 1 ∧
      (submitLoopF env fuel s).2.1.attempts = env.availFrames + 1 ∧
      (submitLoopF env fuel s).2.1.succs = env.availFrames ∧
      (submitLoopF env fuel s).2.1.subs = env.availFrames ∧
      (submitLoopF env fuel s).2.1.done + (submitLoopF env fuel s).2.1.pending =
        env.availFrames ∧
      ∃ pre, (submitLoopF env fuel s).1 = pre ++
        (if env.tailError then
           [Event.readFrame env.availFrames false, Event.logReadError, Event.freeImgIn]
         else [Event.readFrame env.availFrames false, Event.freeImgIn]) := by
  intro fuel
  induction fuel with
  | zero => intro n s _ _ h; omega
  | succ fuel ih =>
    intro n s hs hn hfuel
    obtain ⟨e1, e2, e3, e4, e5⟩ := hs
    have hguard : env.cfg.frames = 0 ∨ s.started < env.cfg.frames := by
      rcases hreach with h | h
      · exact Or.inl h
      · exact Or.inr (by omega)
    by_cases hlt : n < env.availFrames
    · have hread : s.succs < env.availFrames := by omega
      rw [submitLoopF, if_pos hguard, if_neg (by simp [hal]), if_pos hread,
          if_neg (by simp [hef])]
      by_cases hemit : env.encodeEmit s.subs
      · simp only [hemit, if_true]
        obtain ⟨hfat, h1, h2, h3, h4, h5, pre, hpre⟩ := ih (n + 1)
          { started := s.started + 1, done := s.done + 1, pending := s.pending + 1 - 1,
            subs := s.subs + 1, attempts := s.attempts + 1, succs := s.succs + 1,
            psnr0 := s.psnr0 + (env.psnrOf s.done).1, psnr1 := s.psnr1 + (env.psnrOf s.done).2.1,
            psnr2 := s.psnr2 + (env.psnrOf s.done).2.2, bits := s.bits + env.bytesOf s.done }
          (by refine ⟨?_, ?_, ?_, ?_, ?_⟩ <;> simp <;> omega)
          (by omega) (by omega)
        refine ⟨hfat, h1, h2, h3, h4, h5,
          Event.readFrame s.attempts true :: Event.submit s.subs true ::
            Event.emitOutput s.done :: Event.freeImgIn :: pre, ?_⟩
        simpa using hpre
      · simp only [hemit, if_false]
        obtain ⟨hfat, h1, h2, h3, h4, h5, pre, hpre⟩ := ih (n + 1)
          { started := s.started + 1, done := s.done, pending := s.pending + 1,
            subs := s.subs + 1, attempts := s.attempts + 1, succs := s.succs + 1,
            psnr0 := s.psnr0, psnr1 := s.psnr1, psnr2 := s.psnr2, bits := s.bits }
          (by refine ⟨?_, ?_, ?_, ?_, ?_⟩ <;> simp <;> omega)
          (by omega) (by omega)
        refine ⟨hfat, h1, h2, h3, h4, h5,
          Event.readFrame s.attempts true :: Event.submit s.subs true ::
            Event.freeImgIn :: pre, ?_⟩
        simpa using hpre
    · have hn' : n = env.availFrames := by omega
      have hread : ¬ s.succs < env.availFrames := by omega
      rw [submitLoopF, if_pos hguard, if_neg (by simp [hal]), if_neg hread]
      refine ⟨rfl, by simp; omega, by simp; omega, by simp; omega, by simp; omega,
        by simp; omega, [], ?_⟩
      rw [e2, hn']
      simp

theorem submitLoop_encfail (env : Env) (hal : env.allocFailAt = none) (k : Nat)
    (hef : env.encodeFailAt = some k) (hkf : env.cfg.frames = 0 ∨ k < env.cfg.frames)
    (hka : k < env.availFrames) :
    ∀ fuel n s, aligned s n → n ≤ k → k - n < fuel →
      (submitLoopF env fuel s).2.2 = true ∧
      (submitLoopF env fuel s).2.1.started = k + 1 ∧
      (submitLoopF env fuel s).2.1.attempts = k + 1 ∧
      (submitLoopF env fuel s).2.1.succs = k + 1 ∧
      (submitLoopF env fuel s).2.1.subs = k + 1 ∧
      ∃ pre, (submitLoopF env fuel s).1 =
        pre ++ [Event.readFrame k true, Event.submit k false, Event.freeImgIn] := by
  intro fuel
  induction fuel with
  | zero => intro n s _ _ h; omega
  | succ fuel ih =>
    intro n s hs hn hfuel
    obtain ⟨e1, e2, e3, e4, e5⟩ := hs
    have hguard : env.cfg.frames = 0 ∨ s.started < env.cfg.frames := by
      rcases hkf with h | h
      · exact Or.inl h
      · exact Or.inr (by omega)
    have hread : s.succs < env.availFrames := by omega
    by_cases hk : n = k
    · have hfail : env.encodeFailAt = some s.subs := by rw [hef, e4, hk]
      rw [submitLoopF, if_pos hguard, if_neg (by simp [hal]), if_pos hread, if_pos hfail]
      refine ⟨rfl, by simp; omega, by simp; omega, by simp; omega, by simp; omega, [], ?_⟩
      rw [e2, e4, hk]
      simp
    · have hnofail : ¬ env.encodeFailAt = some s.subs := by
        rw [hef, e4]; simp; omega
      rw [submitLoopF, if_pos hguard, if_neg (by simp [hal]), if_pos hread, if_neg hnofail]
      by_cases hemit : env.encodeEmit s.subs
      · simp only [hemit, if_true]
        obtain ⟨hfat, h1, h2, h3, h4, pre, hpre⟩ := ih (n + 1)
          { started := s.started + 1, done := s.done + 1, pending := s.pending + 1 - 1,
            subs := s.subs + 1, attempts := s.attempts + 1, succs := s.succs + 1,
            psnr0 := s.psnr0 + (env.psnrOf s.done).1, psnr1 := s.psnr1 + (env.psnrOf s.done).2.1,
            psnr2 := s.psnr2 + (env.psnrOf s.done).2.2, bits := s.bits + env.bytesOf s.done }
          (by refine ⟨?_, ?_, ?_, ?_, ?_⟩ <;> simp <;> omega)
          (by omega) (by omega)
        refine ⟨hfat, h1, h2, h3, h4,
          Event.readFrame s.attempts true :: Event.submit s.subs true ::
            Event.emitOutput s.done :: Event.freeImgIn :: pre, ?_⟩
        simpa using hpre
      · simp only [hemit, if_false]
        obtain ⟨hfat, h1, h2, h3, h4, pre, hpre⟩ := ih (n + 1)
          { started := s.started + 1, done := s.done, pending := s.pending + 1,
            subs := s.subs + 1, attempts := s.attempts + 1, succs := s.succs + 1,
            psnr0 := s.psnr0, psnr1 := s.psnr1, psnr2 := s.psnr2, bits := s.bits }
          (by refine ⟨?_, ?_, ?_, ?_, ?_⟩ <;> simp <;> omega)
          (by omega) (by omega)
        refine ⟨hfat, h1, h2, h3, h4,
          Event.readFrame s.attempts true :: Event.submit s.subs true ::
            Event.freeImgIn :: pre, ?_⟩
        simpa using hpre

theorem drainLoop_all (env : Env) :
    ∀ fuel d, d.pending + d.stutter < fuel →
      (drainLoopF env fuel d).2.pending = 0 ∧
      (drainLoopF env fuel d).2.done = d.done + d.pending := by
  intro fuel
  induction fuel with
  | zero => intro d h; omega
  | succ fuel ih =>
    intro d h
    by_cases h0 : d.pending = 0
    · rw [drainLoopF, if_pos h0]
      refine ⟨h0, ?_⟩
      dsimp only
      omega
    · by_cases hst : 0 < d.stutter
      · rw [drainLoopF, if_neg h0, if_pos hst]
        dsimp only
        obtain ⟨h1, h2⟩ :=
          ih ⟨d.pending, d.stutter - 1, d.done, d.psnr0, d.psnr1, d.psnr2, d.bits⟩
            (by dsimp only; omega)
        dsimp only at h2
        exact ⟨h1, by omega⟩
      · rw [drainLoopF, if_neg h0, if_neg hst]
        dsimp only
        obtain ⟨h1, h2⟩ :=
          ih ⟨d.pending - 1, d.stutter, d.done + 1, d.psnr0 + (env.psnrOf d.done).1,
              d.psnr1 + (env.psnrOf d.done).2.1, d.psnr2 + (env.psnrOf d.done).2.2,
              d.bits + env.bytesOf d.done⟩
            (by dsimp only; omega)
        dsimp only at h2
        exact ⟨h1, by omega⟩

/-- Summary of a full submission loop that hits no allocation and no
encode failure: it never jumps to `exit_failure`, every iteration that
read a frame also attempted it, and every successful read was submitted
and is accounted for either in `frames_done` or still inside the
encoder. -/
theorem submitLoop_noFail (env : Env) (hal : env.allocFailAt = none)
    (hef : env.encodeFailAt = none) :
    (submitLoopF env (env.availFrames + env.cfg.frames + 2) initLoop).2.2 = false ∧
    (submitLoopF env (env.availFrames + env.cfg.frames + 2) initLoop).2.1.started =
      (submitLoopF env (env.availFrames + env.cfg.frames + 2) initLoop).2.1.attempts ∧
    (submitLoopF env (env.availFrames + env.cfg.frames + 2) initLoop).2.1.done +
        (submitLoopF env (env.availFrames + env.cfg.frames + 2) initLoop).2.1.pending =
      (submitLoopF env (env.availFrames + env.cfg.frames + 2) initLoop).2.1.succs ∧
    (submitLoopF env (env.availFrames + env.cfg.frames + 2) initLoop).2.1.subs =
      (submitLoopF env (env.availFrames + env.cfg.frames + 2) initLoop).2.1.succs ∧
    (submitLoopF env (env.availFrames + env.cfg.frames + 2) initLoop).2.1.succs ≤
      (submitLoopF env (env.availFrames + env.cfg.frames + 2) initLoop).2.1.attempts := by
  by_cases hf : env.cfg.frames = 0
  · obtain ⟨hfat, h1, h2, h3, h4, h5, _⟩ :=
      submitLoop_exhaust env hal hef (Or.inl hf) (env.availFrames + env.cfg.frames + 2) 0
        initLoop ⟨rfl, rfl, rfl, rfl, rfl⟩ (Nat.zero_le _) (by omega)
    exact ⟨hfat, by omega, by omega, by omega, by omega⟩
  · by_cases hle : env.cfg.frames ≤ env.availFrames
    · obtain ⟨hfat, f1, f2, f3, f4, f5⟩ :=
        submitLoop_limit env hal hef (by omega) hle (env.availFrames + env.cfg.frames + 2) 0
          initLoop ⟨rfl, rfl, rfl, rfl, rfl⟩ (Nat.zero_le _) (by omega)
      exact ⟨hfat, by omega, by omega, by omega, by omega⟩
    · obtain ⟨hfat, h1, h2, h3, h4, h5, _⟩ :=
        submitLoop_exhaust env hal hef (Or.inr (by omega)) (env.availFrames + env.cfg.frames + 2)
          0 initLoop ⟨rfl, rfl, rfl, rfl, rfl⟩ (Nat.zero_le _) (by omega)
      exact ⟨hfat, by omega, by omega, by omega, by omega⟩

/-! ## Concrete environments used by witnesses and counterexamples -/

/-- A minimal configuration: stdin to stdout, no debug output, no frame
limit, no seek. -/
def baseCfg : Config :=
  { input := "-", output := "-", debug := none, frames := 0, seek := 0 }

/-- A fully healthy base environment over `baseCfg` with an empty input. -/
def baseEnv : Env :=
  { cfg := baseCfg
    configAllocOk := true, configInitOk := true, configReadOk := true
    fopenOk := fun _ _ => true
    bitstreamInitOk := true, encoderOpenOk := true, seekOk := true
    availFrames := 0, tailError := false
    allocFailAt := none, encodeFailAt := none
    encodeEmit := fun _ => false, drainNulls := 0
    psnrOf := fun _ => (1, 1, 1), bytesOf := fun _ => 10
    startWall := 0, startCpu := 0, endWall := 1, endCpu := 1 }

/-- A run whose command line is rejected by `config_read`. -/
def envC1 : Env := { baseEnv with configReadOk := false }

/-- A run with an empty input: zero frames are encoded. -/
def envC2 : Env := baseEnv

/-- A two-frame run where each submission immediately returns a picture. -/
def envC4 : Env :=
  { baseEnv with availFrames := 2, encodeEmit := fun _ => true }

/-- A one-frame run whose two wall-clock captures read the same value. -/
def envC8 : Env :=
  { baseEnv with availFrames := 1, encodeEmit := fun _ => true, endWall := 0 }

/-- A three-read run (two successes, then a short read) with pipeline
latency: the second submission emits, the first frame stays buffered
until flush, and one flush call returns no picture. -/
def envW3 : Env :=
  { baseEnv with
    availFrames := 2
    tailError := true
    drainNulls := 1
    encodeEmit := fun k => k == 1 }

/-! ## Claim theorems -/

/-- Claim C3: in every run that completes the flush phase (acquisitions
succeed, no allocation failure, no submission failure), the final
`frames_done` equals the number of frames successfully read — not the
number of read attempts `frames_started` counts: a failed read attempt
increments `frames_started` but never `frames_done`. -/
theorem frames_done_eq_reads_succeeded (env : Env) (hacq : acqOk env)
    (hal : env.allocFailAt = none) (hef : env.encodeFailAt = none) :
    (runMain env).retval = true ∧
    (runMain env).report.isSome = true ∧
    (runMain env).framesDone = (runMain env).readsSucceeded ∧
    (runMain env).framesStarted = (runMain env).readAttempts ∧
    (runMain env).readsSucceeded ≤ (runMain env).readAttempts := by
  rw [runMain_acq env hacq]
  obtain ⟨hfat, hsa, hdp, hsub, hsle⟩ := submitLoop_noFail env hal hef
  unfold encodePhase
  dsimp only
  rw [hfat]
  simp only [Bool.false_eq_true, if_false]
  obtain ⟨hd0, hdd⟩ := drainLoop_all env
    ((submitLoopF env (env.availFrames + env.cfg.frames + 2) initLoop).2.1.pending +
      env.drainNulls + 1)
    ⟨(submitLoopF env (env.availFrames + env.cfg.frames + 2) initLoop).2.1.pending,
     env.drainNulls,
     (submitLoopF env (env.availFrames + env.cfg.frames + 2) initLoop).2.1.done,
     (submitLoopF env (env.availFrames + env.cfg.frames + 2) initLoop).2.1.psnr0,
     (submitLoopF env (env.availFrames + env.cfg.frames + 2) initLoop).2.1.psnr1,
     (submitLoopF env (env.availFrames + env.cfg.frames + 2) initLoop).2.1.psnr2,
     (submitLoopF env (env.availFrames + env.cfg.frames + 2) initLoop).2.1.bits⟩
    (by dsimp only; omega)
  dsimp only at hdd
  refine ⟨?_, ?_, ?_, ?_, ?_⟩
  · trivial
  · trivial
  · dsimp only; omega
  · dsimp only; omega
  · dsimp only; omega

/-- Witness for C3 on a concrete run with a mid-stream read failure:
two of three read attempts succeed and exactly those two are counted. -/
theorem frames_done_eq_reads_succeeded_witness :
    (runMain envW3).framesDone = (runMain envW3).readsSucceeded ∧
    (runMain envW3).framesStarted = (runMain envW3).readAttempts :=
  ⟨(frames_done_eq_reads_succeeded envW3 (by decide) rfl rfl).2.2.1,
   (frames_done_eq_reads_succeeded envW3 (by decide) rfl rfl).2.2.2.1⟩

/-- A five-frame input under a frame-count limit of one. -/
def envW7 : Env :=
  { baseEnv with
    cfg := { baseCfg with frames := 1 }
    availFrames := 5
    encodeEmit := fun _ => true }

/-- A three-frame input whose second submission is rejected by the
encoder. -/
def envW5 : Env :=
  { baseEnv with
    availFrames := 3
    encodeFailAt := some 1
    encodeEmit := fun _ => true }

/-- List-shape helpers for locating event sequences inside a trace. -/
theorem exists_infix_extend (a : Event) (pre mid rest1 rest2 tail : List Event) :
    ∃ p q, (a :: (((pre ++ mid) ++ rest1) ++ rest2)) ++ tail = p ++ mid ++ q :=
  ⟨a :: pre, (rest1 ++ rest2) ++ tail, by simp⟩

theorem exists_capture_flush (a : Event) (l1 l2 tail : List Event) :
    ∃ p q, (a :: ((l1 ++ l2) ++ [Event.captureEndTime, Event.threadqueueFlush,
        Event.printStats])) ++ tail =
      p ++ [Event.captureEndTime, Event.threadqueueFlush] ++ q :=
  ⟨a :: (l1 ++ l2), Event.printStats :: tail, by simp⟩

/-- Every run either never reaches the statistics block, or its trace
captures the end time and then immediately runs the threadqueue flush. -/
theorem runMain_report_trace (env : Env) :
    (runMain env).report = none ∨
    ∃ pre post, (runMain env).trace =
      pre ++ [Event.captureEndTime, Event.threadqueueFlush] ++ post := by
  unfold runMain afterFiles failRun encodePhase
  dsimp only
  repeat' split
  all_goals try (left; rfl)
  all_goals (right; dsimp only; exact exists_capture_flush _ _ _ _)

/-- Every produced report is `mkReport` of the final drain counters. -/
theorem report_shape (env : Env) :
    (runMain env).report = none ∨
    ∃ d : DrainSt, (runMain env).report = some (mkReport env d) ∧
      (runMain env).framesDone = d.done := by
  unfold runMain afterFiles failRun encodePhase
  dsimp only
  repeat' split
  all_goals try (left; rfl)
  all_goals (right; dsimp only; exact ⟨_, rfl, rfl⟩)

/-- Claim C7: in every run with successful acquisitions and no allocation
or submission failure: a configured limit N > 0 with at least N readable
frames gives exactly N submissions and exactly N read attempts (no
further input is read before flushing); with limit 0 the loop runs until
input exhaustion: `availFrames + 1` read attempts and `availFrames`
submissions. -/
theorem submission_count_limit (env : Env) (hacq : acqOk env)
    (hal : env.allocFailAt = none) (hef : env.encodeFailAt = none) :
    (0 < env.cfg.frames → env.cfg.frames ≤ env.availFrames →
      (runMain env).submissions = env.cfg.frames ∧
      (runMain env).readAttempts = env.cfg.frames ∧
      (runMain env).retval = true) ∧
    (env.cfg.frames = 0 →
      (runMain env).submissions = env.availFrames ∧
      (runMain env).readAttempts = env.availFrames + 1) := by
  rw [runMain_acq env hacq]
  unfold encodePhase
  dsimp only
  constructor
  · intro hf0 hle
    obtain ⟨hfat, f1, f2, f3, f4, f5⟩ :=
      submitLoop_limit env hal hef hf0 hle (env.availFrames + env.cfg.frames + 2) 0
        initLoop ⟨rfl, rfl, rfl, rfl, rfl⟩ (Nat.zero_le _) (by omega)
    rw [hfat]
    simp only [Bool.false_eq_true, if_false]
    refine ⟨?_, ?_, ?_⟩ <;> trivial
  · intro hf
    obtain ⟨hfat, h1, h2, h3, h4, h5, _⟩ :=
      submitLoop_exhaust env hal hef (Or.inl hf) (env.availFrames + env.cfg.frames + 2) 0
        initLoop ⟨rfl, rfl, rfl, rfl, rfl⟩ (Nat.zero_le _) (by omega)
    rw [hfat]
    simp only [Bool.false_eq_true, if_false]
    refine ⟨?_, ?_⟩ <;> trivial

/-- Witness for C7 on the spec's own scenario: limit 1 with a five-frame
input gives exactly one submission and one read attempt. -/
theorem submission_count_limit_witness :
    (runMain envW7).submissions = 1 ∧ (runMain envW7).readAttempts = 1 :=
  ⟨((submission_count_limit envW7 (by decide) rfl rfl).1 (by decide) (by decide)).1,
   ((submission_count_limit envW7 (by decide) rfl rfl).1 (by decide) (by decide)).2.1⟩

/-- Claim C5: if the `k`-th submission call fails, the run is aborted:
the just-submitted frame is freed immediately after the failing call,
teardown follows at once (no further reads or submissions), and the
exit status is `EXIT_FAILURE`; the statistics block never runs. -/
theorem encode_failure_aborts (env : Env) (hacq : acqOk env)
    (hal : env.allocFailAt = none) (k : Nat) (hef : env.encodeFailAt = some k)
    (hka : k < env.availFrames) (hkf : env.cfg.frames = 0 ∨ k < env.cfg.frames) :
    (runMain env).retval = false ∧
    (runMain env).report = none ∧
    (runMain env).submissions = k + 1 ∧
    (runMain env).readAttempts = k + 1 ∧
    (runMain env).readsSucceeded = k + 1 ∧
    ∃ pre, (runMain env).trace =
      pre ++ [Event.submit k false, Event.freeImgIn] ++ teardownTrace (stAll env) := by
  rw [runMain_acq env hacq]
  unfold encodePhase
  dsimp only
  obtain ⟨hfat, h1, h2, h3, h4, pre, hpre⟩ :=
    submitLoop_encfail env hal k hef hkf hka (env.availFrames + env.cfg.frames + 2) 0
      initLoop ⟨rfl, rfl, rfl, rfl, rfl⟩ (Nat.zero_le _) (by omega)
  rw [hfat]
  simp only [if_true]
  refine ⟨?_, ?_, ?_, ?_, ?_, ?_⟩
  · trivial
  · trivial
  · (try dsimp only); omega
  · (try dsimp only); omega
  · (try dsimp only); omega
  · dsimp only
    rw [hpre]
    refine ⟨Event.captureStartTime :: (pre ++ [Event.readFrame k true]), ?_⟩
    simp

/-- Witness for C5: the second of three submissions fails, so exactly
two frames are read and submitted and the run exits with failure. -/
theorem encode_failure_aborts_witness :
    (runMain envW5).retval = false ∧ (runMain envW5).submissions = 2 :=
  ⟨(encode_failure_aborts envW5 (by decide) rfl 1 rfl (by decide) (by decide)).1,
   (encode_failure_aborts envW5 (by decide) rfl 1 rfl (by decide) (by decide)).2.2.1⟩

/-- Claim C6: a short/malformed mid-stream read (with no other failure in
the run) logs the diagnostic, frees the frame buffer, stops submitting
and proceeds to the flush phase, and the exit status remains
`EXIT_SUCCESS`: a read failure alone never makes it nonzero. -/
theorem read_failure_not_fatal (env : Env) (hacq : acqOk env)
    (hal : env.allocFailAt = none) (hef : env.encodeFailAt = none)
    (hreach : env.cfg.frames = 0 ∨ env.availFrames < env.cfg.frames)
    (hterr : env.tailError = true) :
    (runMain env).retval = true ∧
    (runMain env).report.isSome = true ∧
    (runMain env).submissions = env.availFrames ∧
    ∃ pre post, (runMain env).trace =
      pre ++ [Event.readFrame env.availFrames false, Event.logReadError, Event.freeImgIn]
        ++ post := by
  rw [runMain_acq env hacq]
  unfold encodePhase
  dsimp only
  obtain ⟨hfat, h1, h2, h3, h4, h5, pre, hpre⟩ :=
    submitLoop_exhaust env hal hef hreach (env.availFrames + env.cfg.frames + 2) 0
      initLoop ⟨rfl, rfl, rfl, rfl, rfl⟩ (Nat.zero_le _) (by omega)
  rw [hfat]
  simp only [Bool.false_eq_true, if_false]
  rw [hterr] at hpre
  simp only [if_true] at hpre
  refine ⟨?_, ?_, ?_, ?_⟩
  · trivial
  · trivial
  · (try dsimp only); omega
  · dsimp only
    rw [hpre]
    exact exists_infix_extend _ _ _ _ _ _

/-- Witness for C6: the run of `envW3` ends with a short read after two
good frames, yet exits successfully having submitted both. -/
theorem read_failure_not_fatal_witness :
    (runMain envW3).retval = true ∧ (runMain envW3).submissions = 2 :=
  ⟨(read_failure_not_fatal envW3 (by decide) rfl rfl (by decide) rfl).1,
   (read_failure_not_fatal envW3 (by decide) rfl rfl (by decide) rfl).2.2.1⟩

/-- Claim C1, divergence witness: on a run whose command line is rejected
by `config_read`, teardown still executes the `bitstream_finalize`
release step even though `bitstream_init` never ran (`bsInit = false`):
that step is not guarded by any null/sentinel check, unlike the encoder,
configuration and file-close steps, which are correctly absent here. -/
theorem config_failure_unguarded_finalize :
    (runMain envC1).bsInit = false ∧
    (runMain envC1).trace =
      [Event.printHelp, Event.finalizeBitstream, Event.destroyConfig] := by decide

/-- Claim C2, counterexample to the claim as stated: a run that encodes
zero frames still reaches the mean-quality computation and performs the
per-plane division with a zero divisor (non-finite result), instead of
reporting a sentinel. -/
theorem zero_frames_division_counterexample :
    ((runMain envC2).report.map fun r => (r.processedFrames, r.avg0, r.avg1, r.avg2)) =
      some (0, FVal.undef, FVal.undef, FVal.undef) := by decide

/-- Claim C2, amended: whenever the final report exists and its completed
frame count is zero, all three mean-quality values are the non-finite
result of the zero-divisor division — the code has no sentinel branch. -/
theorem zero_frames_mean_division (env : Env) (r : FinalReport)
    (h : (runMain env).report = some r) (h0 : r.processedFrames = 0) :
    r.avg0 = FVal.undef ∧ r.avg1 = FVal.undef ∧ r.avg2 = FVal.undef := by
  rcases report_shape env with hn | ⟨d, hr, _⟩
  · rw [hn] at h; cases h
  · rw [hr] at h
    injection h with h
    subst h
    have hd : d.done = 0 := by simpa [mkReport] using h0
    refine ⟨?_, ?_, ?_⟩ <;> simp [mkReport, fpDiv, hd]

/-- A placeholder report used only to name the report of a concrete run. -/
def junkReport : FinalReport :=
  ⟨0, 0, FVal.undef, FVal.undef, FVal.undef, 0, 0, FVal.undef, FVal.undef⟩

/-- The report of the zero-frame run `envC2`. -/
def rC2 : FinalReport := ((runMain envC2).report).getD junkReport

/-- Witness for the amended C2 at the zero-frame run. -/
theorem zero_frames_mean_division_witness :
    rC2.avg0 = FVal.undef ∧ rC2.avg1 = FVal.undef ∧ rC2.avg2 = FVal.undef :=
  zero_frames_mean_division envC2 rC2 rfl rfl

unseal Rat.sub in
/-- Claim C8, counterexample to the claim as stated: a run with one
completed frame whose two wall-clock captures coincide performs both the
CPU-usage and the frames-per-second division with a zero divisor — the
divisions are not guarded. -/
theorem timing_division_counterexample :
    ((runMain envC8).report.map fun r => (r.processedFrames, r.wallTime, r.cpuUsage, r.fps)) =
      some (1, 0, FVal.undef, FVal.undef) := by decide

/-- Claim C8, amended: the CPU-utilization percentage is computed as
`cpu_seconds / wall_seconds × 100` and the frame rate as
`frames_completed / wall_seconds`, but the divisions are performed
unconditionally: with a zero elapsed wall time both results are the
non-finite outcome of a zero-divisor division. -/
theorem timing_divisions_formula_unguarded (env : Env) (r : FinalReport)
    (h : (runMain env).report = some r) :
    r.cpuUsage = FVal.mulQ (fpDiv r.encodingTime r.wallTime) 100 ∧
    r.fps = fpDiv (r.processedFrames : ℚ) r.wallTime ∧
    (r.wallTime = 0 → r.cpuUsage = FVal.undef ∧ r.fps = FVal.undef) := by
  rcases report_shape env with hn | ⟨d, hr, _⟩
  · rw [hn] at h; cases h
  · rw [hr] at h
    injection h with h
    subst h
    refine ⟨by simp [mkReport], by simp [mkReport], fun hw => ?_⟩
    have hw0 : env.endWall - env.startWall = 0 := by simpa [mkReport] using hw
    constructor <;> simp [mkReport, fpDiv, FVal.mulQ, hw0]

/-- The report of the zero-wall-time run `envC8`. -/
def rC8 : FinalReport := ((runMain envC8).report).getD junkReport

unseal Rat.sub in
/-- Witness for the amended C8 at the zero-wall-time run. -/
theorem timing_divisions_formula_unguarded_witness :
    rC8.cpuUsage = FVal.undef ∧ rC8.fps = FVal.undef :=
  (timing_divisions_formula_unguarded envC8 rC8 rfl).2.2 (by decide)

/-- Claim C4, counterexample to the claim as stated: in a concrete
completed run the unique end-time capture event occurs strictly before
the unique threadqueue-flush barrier event, so the barrier does not
happen before the end-time capture. -/
theorem barrier_after_end_capture_counterexample :
    ((runMain envC4).trace.count Event.captureEndTime = 1) ∧
    ((runMain envC4).trace.count Event.threadqueueFlush = 1) ∧
    (runMain envC4).trace.indexOf Event.captureEndTime <
      (runMain envC4).trace.indexOf Event.threadqueueFlush := by decide

/-- Claim C4, amended: in every run that reaches the statistics block,
the end-of-encoding timestamps are captured immediately after the drain
loop and immediately *before* the `threadqueue_flush` barrier: the trace
contains the capture event directly followed by the barrier event. -/
theorem end_capture_precedes_barrier (env : Env)
    (h : (runMain env).report.isSome = true) :
    ∃ pre post, (runMain env).trace =
      pre ++ [Event.captureEndTime, Event.threadqueueFlush] ++ post := by
  rcases runMain_report_trace env with hn | hs
  · rw [hn] at h; cases h
  · exact hs

/-- Witness for the amended C4 at a concrete two-frame run. -/
theorem end_capture_precedes_barrier_witness :
    ∃ pre post, (runMain envC4).trace =
      pre ++ [Event.captureEndTime, Event.threadqueueFlush] ++ post :=
  end_capture_precedes_barrier envC4 (by decide)

/-- Claim C9: the sentinel path `"-"` binds the input to `stdin` and the
output (or debug) path to `stdout`; every other path is opened as a
named file with `fopen` in raw binary mode — `"rb"` for the input and
`"wb"` for the output. -/
theorem dash_paths_bind_standard_streams (fs : String → String → Bool) (name : String)
    (h : name ≠ "-") :
    open_input_file fs ("-") = some Handle.stdin ∧
    open_output_file fs ("-") = some Handle.stdout ∧
    open_input_file fs name = fopen fs name ("rb") ∧
    open_output_file fs name = fopen fs name ("wb") := by
  refine ⟨?_, ?_, ?_, ?_⟩ <;> simp [open_input_file, open_output_file, h]

/-- Oracle under which every `fopen` succeeds. -/
def alwaysOpen : String → String → Bool := fun _ _ => true

/-- Witness for C9 at the path `"video.yuv"`. -/
theorem dash_paths_bind_standard_streams_witness :
    open_input_file alwaysOpen ("-") = some Handle.stdin ∧
    open_input_file alwaysOpen ("video.yuv") =
      fopen alwaysOpen ("video.yuv") ("rb") :=
  ⟨(dash_paths_bind_standard_streams alwaysOpen ("video.yuv") (by decide)).1,
   (dash_paths_bind_standard_streams alwaysOpen ("video.yuv") (by decide)).2.2.1⟩

/-- Claim C10: when the configured input path is `"-"`, the acquired input
handle is the standard-input stream itself and teardown applies the
file-close step to it; likewise the standard-output stream for an output
path `"-"`.  This holds on every run that gets past configuration,
whatever happens later. -/
theorem teardown_closes_standard_streams (env : Env)
    (h1 : env.configAllocOk = true) (h2 : env.configInitOk = true)
    (h3 : env.configReadOk = true) :
    (env.cfg.input = "-" → Event.closeFile Handle.stdin ∈ (runMain env).trace) ∧
    ((open_input_file env.fopenOk env.cfg.input).isSome = true →
      env.cfg.output = "-" → Event.closeFile Handle.stdout ∈ (runMain env).trace) := by
  constructor
  · intro hin
    have hopen : open_input_file env.fopenOk env.cfg.input = some Handle.stdin := by
      simp [open_input_file, hin]
    unfold runMain
    simp only [h1, h2, h3, and_self, if_true]
    rw [hopen]
    unfold afterFiles encodePhase failRun
    repeat' split
    all_goals simp_all [teardownTrace]
    all_goals split <;> simp_all
  · intro hinS hout
    obtain ⟨hin, hineq⟩ := Option.isSome_iff_exists.mp hinS
    have hopeno : open_output_file env.fopenOk env.cfg.output = some Handle.stdout := by
      simp [open_output_file, hout]
    unfold runMain
    simp only [h1, h2, h3, and_self, if_true]
    rw [hineq, hopeno]
    unfold afterFiles encodePhase failRun
    repeat' split
    all_goals simp_all [teardownTrace]
    all_goals split <;> simp_all

/-- Witness for C10 on the concrete stdin-to-stdout run. -/
theorem teardown_closes_standard_streams_witness :
    Event.closeFile Handle.stdin ∈ (runMain baseEnv).trace ∧
    Event.closeFile Handle.stdout ∈ (runMain baseEnv).trace :=
  ⟨(teardown_closes_standard_streams baseEnv rfl rfl rfl).1 rfl,
   (teardown_closes_standard_streams baseEnv rfl rfl rfl).2 (by decide) rfl⟩

end Encmain
